import Mathlib

/-!
Verification of the ordered-collection facade of realm-js
(src/packages/realm/src/OrderedCollection.ts).

The backing `binding.Results` handle is modelled as the list of native
values it currently holds; `helpers.fromBinding` and `helpers.toBinding`
are abstract functions between host values and native values; fallible
operations return `Except String`.
-/

namespace RealmJS

universe u v w

variable {α : Type u} {β : Type v} {γ : Type w}

/-- Digit-accumulation loop of JS `Number.parseInt(_, 10)`: consume the
longest prefix of decimal digits, left to right. -/
def parseIntGo (acc : Nat) : List Char → Nat
  | [] => acc
  | c :: cs => if c.isDigit then parseIntGo (acc * 10 + (c.toNat - 48)) cs else acc

/-- Parse the longest decimal-digit prefix; `none` when there is no digit
(which is JS `NaN`). -/
def parseIntDigits : List Char → Option Nat
  | [] => none
  | c :: cs => if c.isDigit then some (parseIntGo (c.toNat - 48) cs) else none

/-- JS `Number.parseInt(prop, 10)`: skip leading whitespace, an optional
sign, then the longest decimal-digit prefix; `none` models `NaN`. -/
def parseIntJS (s : String) : Option Int :=
  match s.data.dropWhile Char.isWhitespace with
  | '-' :: rest => (parseIntDigits rest).map (fun n => -(n : Int))
  | '+' :: rest => (parseIntDigits rest).map (fun n => (n : Int))
  | cs => (parseIntDigits cs).map (fun n => (n : Int))

/-- `OrderedCollection.get(index)`:
`this.helpers.fromBinding(this.helpers.get(this.results, index))`.
The unchecked native element access is modelled with `List.getElem?`. -/
def OrderedCollection.get (fromBinding : β → α) (results : List β) (index : Nat) : Option α :=
  (results[index]?).map fromBinding

/-- `OrderedCollection.set(index, value)`: the base class always throws
(`Assigning into a ... is not support`); an `.ok` result would carry the
updated backing list, so an `.error` leaves the collection untouched. -/
def OrderedCollection.set (results : List β) (index : Int) (value : γ) :
    Except String (List β) :=
  .error "Assigning into a OrderedCollection is not support"

/-- Outcome of a property write through the facade proxy. -/
inductive SetResult where
  /-- `target.set` returned normally (never happens at this layer). -/
  | setOk
  /-- `target.set(index, value)` was reached and raised. -/
  | errorAssign
  /-- the proxy raised `Index ... cannot be less than zero.` itself. -/
  | errorNegative
  /-- fell through to `Reflect.set`: ordinary property assignment on the
  facade object. -/
  | ordinaryAssign
  deriving DecidableEq, Repr

/-- `PROXY_HANDLER.set`: parse the string key as a radix-10 integer; a
parsed index `>= 0` (no upper bound!) is routed to `target.set`; a parsed
negative index raises; a key that parses to `NaN` falls through to
`Reflect.set`. Returns the outcome together with the (possibly updated)
backing list. -/
def proxyHandlerSet (results : List β) (prop : String) (value : γ) :
    SetResult × List β :=
  match parseIntJS prop with
  | some index =>
    if 0 ≤ index then
      match OrderedCollection.set results index value with
      | .ok results2 => (.setOk, results2)
      | .error _ => (.errorAssign, results)
    else (.errorNegative, results)
  | none => (.ordinaryAssign, results)

/-- `PROXY_HANDLER.get`: a property the target really has (`Reflect.has`)
is read from the target (`declared`); otherwise a string key parsing to an
in-bounds index is answered by `target.get(index)`; everything else is
`undefined` (`none`). -/
def proxyHandlerGet (declared : String → Option α) (fromBinding : β → α)
    (results : List β) (prop : String) : Option α :=
  match declared prop with
  | some v => some v
  | none =>
    match parseIntJS prop with
    | some index =>
      if 0 ≤ index ∧ index < (results.length : Int) then
        OrderedCollection.get fromBinding results index.toNat
      else none
    | none => none

/-- Claim C1 counterexample: on an empty collection, a write at index `0`
(which is `≥ length`) is routed to the collection set operation and raises,
instead of falling through to an ordinary property assignment. -/
theorem claim_C1_counterexample :
    proxyHandlerSet ([] : List Nat) "0" (1 : Nat) = (SetResult.errorAssign, [])
    ∧ SetResult.errorAssign ≠ SetResult.ordinaryAssign := by
  constructor
  · rfl
  · intro h
    exact SetResult.noConfusion h

/-- Claim C1 (amended): a write at a numeric-string key parsing to an index
`i ≥ length` (like any `i ≥ 0`) IS routed to the collection set operation,
which raises an error; the collection is unchanged and no ordinary property
assignment on the facade happens. -/
theorem claim_C1_out_of_range_write (results : List β) (prop : String) (value : γ)
    (index : Int) (hparse : parseIntJS prop = some index)
    (hlen : (results.length : Int) ≤ index) :
    proxyHandlerSet results prop value = (SetResult.errorAssign, results) := by
  have h0 : 0 ≤ index := by omega
  simp [proxyHandlerSet, hparse, h0, OrderedCollection.set]

/-- Claim C1 (amended) witness at index 5 on an empty collection. -/
theorem claim_C1_out_of_range_write_witness :
    parseIntJS "5" = some 5 ∧ ((([] : List Nat).length : Int) ≤ 5)
    ∧ proxyHandlerSet ([] : List Nat) "5" (0 : Nat) = (SetResult.errorAssign, []) :=
  ⟨rfl, by decide, claim_C1_out_of_range_write [] "5" 0 5 rfl (by decide)⟩

/-- Claim C2: for a numeric-string key that is not a genuine property of
the facade, an in-range read returns `fromBinding` of the backing element
at that index, and an out-of-range read returns `undefined` (`none`),
never an error. -/
theorem claim_C2_indexed_read (declared : String → Option α) (fromBinding : β → α)
    (results : List β) (prop : String) (index : Int)
    (hdecl : declared prop = none) (hparse : parseIntJS prop = some index) :
    (0 ≤ index ∧ index < (results.length : Int) →
      ∃ b, results[index.toNat]? = some b
        ∧ proxyHandlerGet declared fromBinding results prop = some (fromBinding b))
    ∧ (¬(0 ≤ index ∧ index < (results.length : Int)) →
      proxyHandlerGet declared fromBinding results prop = none) := by
  constructor
  · rintro ⟨h0, hlt⟩
    have hnat : index.toNat < results.length := by omega
    refine ⟨results[index.toNat], List.getElem?_eq_getElem hnat, ?_⟩
    simp only [proxyHandlerGet, hdecl, hparse]
    rw [if_pos ⟨h0, hlt⟩]
    simp only [OrderedCollection.get, List.getElem?_eq_getElem hnat, Option.map_some']
  · intro hout
    simp only [proxyHandlerGet, hdecl, hparse]
    rw [if_neg hout]

/-- Claim C2 witness: reading key "1" on a two-element backing returns the
image of the element at index 1; the same theorem also covers the
out-of-range branch vacuously at this input. -/
theorem claim_C2_indexed_read_witness :
    ((fun _ : String => (none : Option Nat)) "1" = none)
    ∧ parseIntJS "1" = some 1
    ∧ ((0 ≤ (1 : Int) ∧ (1 : Int) < (([10, 20] : List Nat).length : Int) →
        ∃ b, ([10, 20] : List Nat)[(1 : Int).toNat]? = some b
          ∧ proxyHandlerGet (fun _ => none) (fun n => n + 1) [10, 20] "1" = some (b + 1))
      ∧ (¬(0 ≤ (1 : Int) ∧ (1 : Int) < (([10, 20] : List Nat).length : Int)) →
        proxyHandlerGet (fun _ => (none : Option Nat)) (fun n => n + 1) [10, 20] "1" = none)) :=
  ⟨rfl, rfl, claim_C2_indexed_read (fun _ => none) (fun n => n + 1) [10, 20] "1" 1 rfl rfl⟩

/-- Claim C8: `set(i, v)` on the base ordered collection always raises, and
never produces an updated backing list. -/
theorem claim_C8_set_always_fails (results : List β) (index : Int) (value : γ) :
    OrderedCollection.set results index value
      = .error "Assigning into a OrderedCollection is not support"
    ∧ ∀ results2, OrderedCollection.set results index value ≠ .ok results2 := by
  refine ⟨rfl, fun results2 h => ?_⟩
  simp [OrderedCollection.set] at h

/-- A sort descriptor as accepted by `sorted`: a property-path string or a
`[path, descending]` pair (`SortDescriptor = string | [string, boolean]`). -/
inductive SortDescriptor where
  | str (path : String)
  | pair (path : String) (descending : Bool)
  deriving DecidableEq, Repr

/-- The first argument of `sorted`: boolean, descriptor array, or string. -/
inductive SortedArg where
  | bool (b : Bool)
  | list (descriptors : List SortDescriptor)
  | str (path : String)
  deriving DecidableEq, Repr

/-- The canonicalization performed in the array branch of `sorted`:
a bare string means ascending (`[arg, true]`); a `(path, descending)` pair
maps the reversed flag to the ascending flag expected by the binding
(`[arg[0], !arg[1]]`). -/
def canonicalizeDescriptors (ds : List SortDescriptor) : List (String × Bool) :=
  ds.map fun d =>
    match d with
    | .str path => (path, true)
    | .pair path descending => (path, !descending)

/-- `sorted(arg0 = "self", arg1?)`, modelled as the canonical
`(propertyPath, ascendingFlag)` list handed to `results.sortByNames`: two
calls on the same collection produce equal results exactly when they hand
over equal descriptor lists. The string branch recurses as
`sorted([[arg0, arg1 === true]])` and the boolean branch as
`sorted([["self", arg0]])`; that recursion is inlined here. -/
def sorted (arg0 : SortedArg) (arg1 : Option Bool) : List (String × Bool) :=
  match arg0 with
  | .list ds => canonicalizeDescriptors ds
  | .str path => canonicalizeDescriptors [.pair path (arg1 == some true)]
  | .bool b => canonicalizeDescriptors [.pair "self" b]

/-- Claim C4: the `sorted` call shapes canonicalize identically:
`sorted(name) = sorted([[name, false]]) = sorted(name, false)`;
`sorted(true) = sorted([["self", true]])`; a bare string descriptor is
ascending; a pair with `descending = true` becomes `ascending = false`. -/
theorem claim_C4_sorted_canonicalization (name : String) :
    sorted (.str name) none = sorted (.list [.pair name false]) none
    ∧ sorted (.str name) none = sorted (.str name) (some false)
    ∧ sorted (.bool true) none = sorted (.list [.pair "self" true]) none
    ∧ sorted (.list [.str name]) none = sorted (.list [.pair name false]) none
    ∧ canonicalizeDescriptors [.str name] = [(name, true)]
    ∧ canonicalizeDescriptors [.pair name true] = [(name, false)] :=
  ⟨rfl, rfl, rfl, rfl, rfl, rfl⟩

/-- The Backing Collection search `results.indexOf(value)`: index of the
first occurrence, `-1` when absent. -/
def jsIndexOf [DecidableEq β] (xs : List β) (v : β) : Int :=
  match xs.indexOf? v with
  | some n => (n : Int)
  | none => -1

/-- `OrderedCollection.indexOf(searchElement, fromIndex?)`: the assertion
`typeof fromIndex === "undefined"` runs before anything else; only then is
the Backing Collection consulted (second component of the result). The
RealmObject branch differs only in using an identity-based backing search,
so elements are modelled as plain values here. -/
def OrderedCollection.indexOf [DecidableEq β] (results : List β) (toBinding : α → β)
    (searchElement : α) (fromIndex : Option Int) : Except String Int × Bool :=
  match fromIndex with
  | some _ => (.error "The second fromIndex argument is not yet supported", false)
  | none => (.ok (jsIndexOf results (toBinding searchElement)), true)

/-- Claim C9: `indexOf` with a defined `fromIndex` always raises the
assertion error before consulting the Backing Collection; with `fromIndex`
omitted it succeeds (consulting the backing). -/
theorem claim_C9_indexOf_fromIndex [DecidableEq β] (results : List β)
    (toBinding : α → β) (searchElement : α) (n : Int) :
    OrderedCollection.indexOf results toBinding searchElement (some n)
      = (.error "The second fromIndex argument is not yet supported", false)
    ∧ ∃ k, OrderedCollection.indexOf results toBinding searchElement none = (.ok k, true) :=
  ⟨rfl, ⟨jsIndexOf results (toBinding searchElement), rfl⟩⟩

/-- The native aggregate result representations the binding can return:
plain number, JS Date, arbitrary-precision integer (bigint), the
`binding.Float` wrapper, the `binding.Timestamp` wrapper, an absent value
(`undefined`), or something unrecognized. -/
inductive NativeAggValue where
  | num (x : ℚ)
  | date (t : Int)
  | bigint (i : Int)
  | float (x : ℚ)
  | timestamp (t : Int)
  | absent
  | other
  deriving DecidableEq, Repr

/-- A host-side aggregate value: plain number or date. -/
inductive HostAggValue where
  | num (x : ℚ)
  | date (t : Int)
  deriving DecidableEq, Repr

/-- `const DEFAULT_COLUMN_KEY = 0n` (an opaque column key). -/
def DEFAULT_COLUMN_KEY : Int := 0

/-- `getPropertyColumnKey(name)`: with class helpers present the name is
asserted to be a string (so an omitted name raises) and then resolved;
without class helpers a truthy name raises the list-of-primitives error and
an omitted (or empty) name yields the default column key. -/
def getPropertyColumnKey (classHelpers : Option (String → Option Int))
    (name : Option String) : Except String Int :=
  match classHelpers with
  | some properties =>
    match name with
    | some s =>
      match properties s with
      | some columnKey => .ok columnKey
      | none => .error "Property not found"
    | none => .error "Expected name to be a string"
  | none =>
    match name with
    | some s =>
      if s.isEmpty then .ok DEFAULT_COLUMN_KEY
      else .error "Cannot get property named on a list of primitives"
    | none => .ok DEFAULT_COLUMN_KEY

/-- The normalization chain shared by `min` and `max`: Date, number and
undefined pass through; bigint becomes a number; `Float` unwraps to its
value; `Timestamp` converts to a Date; anything else is a
`TypeAssertionError`. -/
def minMaxDispatch (result : NativeAggValue) : Except String (Option HostAggValue) :=
  match result with
  | .date t => .ok (some (.date t))
  | .num x => .ok (some (.num x))
  | .absent => .ok none
  | .bigint i => .ok (some (.num (i : ℚ)))
  | .float x => .ok (some (.num x))
  | .timestamp t => .ok (some (.date t))
  | .other => .error "TypeAssertionError"

/-- The normalization chain of `sum`: number, bigint and `Float` only;
anything else (including an absent value or a date) is a
`TypeAssertionError`. -/
def sumDispatch (result : NativeAggValue) : Except String ℚ :=
  match result with
  | .num x => .ok x
  | .bigint i => .ok (i : ℚ)
  | .float x => .ok x
  | _ => .error "TypeAssertionError"

/-- The normalization chain of `avg`: number or undefined pass through;
bigint becomes a number; `Float` unwraps; anything else is a
`TypeAssertionError`. -/
def avgDispatch (result : NativeAggValue) : Except String (Option ℚ) :=
  match result with
  | .num x => .ok (some x)
  | .absent => .ok none
  | .bigint i => .ok (some (i : ℚ))
  | .float x => .ok (some x)
  | _ => .error "TypeAssertionError"

/-- Modelled from the spec: the Backing Collection's native `min`
(external engine, consumed at its interface): absent on an empty
collection; on a nonempty one the least element, as a plain number. -/
def bindingMin (xs : List ℚ) : NativeAggValue :=
  match xs with
  | [] => .absent
  | x :: rest => .num (rest.foldl Min.min x)

/-- Modelled from the spec: the Backing Collection's native `max`:
absent on an empty collection, else the greatest element. -/
def bindingMax (xs : List ℚ) : NativeAggValue :=
  match xs with
  | [] => .absent
  | x :: rest => .num (rest.foldl Max.max x)

/-- Modelled from the spec: the Backing Collection's native `sum`:
the sum of an empty collection is defined as 0. -/
def bindingSum (xs : List ℚ) : NativeAggValue :=
  .num (xs.foldl (fun a b => a + b) 0)

/-- Modelled from the spec: the Backing Collection's native `average`:
absent on an empty collection, else the arithmetic mean. -/
def bindingAverage (xs : List ℚ) : NativeAggValue :=
  match xs with
  | [] => .absent
  | _ => .num ((xs.foldl (fun a b => a + b) 0) / (xs.length : ℚ))

/-- `OrderedCollection.min(property?)`: resolve the column key, query the
backing aggregate, normalize its representation. -/
def OrderedCollection.min (classHelpers : Option (String → Option Int))
    (property : Option String) (xs : List ℚ) : Except String (Option HostAggValue) :=
  match getPropertyColumnKey classHelpers property with
  | .error e => .error e
  | .ok _ => minMaxDispatch (bindingMin xs)

/-- `OrderedCollection.max(property?)`. -/
def OrderedCollection.max (classHelpers : Option (String → Option Int))
    (property : Option String) (xs : List ℚ) : Except String (Option HostAggValue) :=
  match getPropertyColumnKey classHelpers property with
  | .error e => .error e
  | .ok _ => minMaxDispatch (bindingMax xs)

/-- `OrderedCollection.sum(property?)`. -/
def OrderedCollection.sum (classHelpers : Option (String → Option Int))
    (property : Option String) (xs : List ℚ) : Except String ℚ :=
  match getPropertyColumnKey classHelpers property with
  | .error e => .error e
  | .ok _ => sumDispatch (bindingSum xs)

/-- `OrderedCollection.avg(property?)`. -/
def OrderedCollection.avg (classHelpers : Option (String → Option Int))
    (property : Option String) (xs : List ℚ) : Except String (Option ℚ) :=
  match getPropertyColumnKey classHelpers property with
  | .error e => .error e
  | .ok _ => avgDispatch (bindingAverage xs)

/-- Claim C7: on an empty (primitive-element) collection, `min`, `max`
and `avg` return an absent value without error, and `sum` returns 0. -/
theorem claim_C7_empty_aggregates :
    OrderedCollection.min none none ([] : List ℚ) = .ok none
    ∧ OrderedCollection.max none none ([] : List ℚ) = .ok none
    ∧ OrderedCollection.avg none none ([] : List ℚ) = .ok none
    ∧ OrderedCollection.sum none none ([] : List ℚ) = .ok 0 :=
  ⟨rfl, rfl, rfl, rfl⟩

/-- Claim C10: with class helpers present (structured-record elements),
calling `min`, `max`, `sum` or `avg` with the property name omitted always
raises the string assertion, and no column key (in particular not the
default one) is ever produced. -/
theorem claim_C10_missing_property_name (properties : String → Option Int)
    (xs : List ℚ) :
    OrderedCollection.min (some properties) none xs = .error "Expected name to be a string"
    ∧ OrderedCollection.max (some properties) none xs = .error "Expected name to be a string"
    ∧ OrderedCollection.sum (some properties) none xs = .error "Expected name to be a string"
    ∧ OrderedCollection.avg (some properties) none xs = .error "Expected name to be a string"
    ∧ ∀ columnKey, getPropertyColumnKey (some properties) none ≠ .ok columnKey := by
  refine ⟨rfl, rfl, rfl, rfl, fun columnKey h => ?_⟩
  simp [getPropertyColumnKey] at h

/-- Modelled from the spec: `unwind`, imported from `./ranges` (a module not
under src/), expands each half-open index range `[a, b)` of the raw
notification payload into the individual covered indices and flattens the
result, performing no validation and no deduplication. -/
def unwind (ranges : List (Nat × Nat)) : List Nat :=
  (ranges.map (fun r => List.range' r.1 (r.2 - r.1))).flatten

theorem chain_sep_head (r : Nat × Nat) (rs : List (Nat × Nat))
    (hw : ∀ s ∈ rs, s.1 ≤ s.2)
    (hc : List.Chain' (fun a b => a.2 ≤ b.1) (r :: rs)) :
    ∀ s ∈ rs, r.2 ≤ s.1 := by
  induction rs generalizing r with
  | nil => intro s hs; exact absurd hs (List.not_mem_nil s)
  | cons s rs ih =>
    rw [List.chain'_cons] at hc
    intro t ht
    rcases List.mem_cons.mp ht with h | h
    · exact h ▸ hc.1
    · have h1 : s.2 ≤ t.1 :=
        ih s (fun u hu => hw u (List.mem_cons_of_mem _ hu)) hc.2 t h
      have h2 : s.1 ≤ s.2 := hw s (List.mem_cons_self _ _)
      have h3 : r.2 ≤ s.1 := hc.1
      omega

theorem chain_sep_pairwise (rs : List (Nat × Nat))
    (hw : ∀ r ∈ rs, r.1 ≤ r.2)
    (hc : List.Chain' (fun a b => a.2 ≤ b.1) rs) :
    List.Pairwise (fun a b => a.2 ≤ b.1) rs := by
  induction rs with
  | nil => exact List.Pairwise.nil
  | cons r rs ih =>
    exact List.Pairwise.cons
      (chain_sep_head r rs (fun s hs => hw s (List.mem_cons_of_mem _ hs)) hc)
      (ih (fun s hs => hw s (List.mem_cons_of_mem _ hs)) hc.tail)

/-- Claim C6: for ascending, non-overlapping half-open ranges, `unwind`
yields the ascending concatenation of all covered integers — witnessed by
the example `[[0,3],[5,6]] = [0,1,2,5]`, the characterization of its
members as exactly the covered integers, and strict sortedness — and its
length is the sum of the widths of the input ranges (that last law needs
no hypothesis at all). -/
theorem claim_C6_unwind (rs : List (Nat × Nat))
    (hwidth : ∀ r ∈ rs, r.1 ≤ r.2)
    (hasc : List.Chain' (fun r s => r.2 ≤ s.1) rs) :
    unwind [(0, 3), (5, 6)] = [0, 1, 2, 5]
    ∧ (unwind rs).length = (rs.map (fun r => r.2 - r.1)).sum
    ∧ (∀ i, i ∈ unwind rs ↔ ∃ r ∈ rs, r.1 ≤ i ∧ i < r.2)
    ∧ List.Pairwise (fun a b => a < b) (unwind rs) := by
  refine ⟨by decide, ?_, ?_, ?_⟩
  · rw [unwind, List.length_flatten, List.map_map]
    congr 1
    apply List.map_congr_left
    intro r _
    simp [Function.comp]
  · intro i
    simp only [unwind, List.mem_flatten, List.mem_map]
    constructor
    · rintro ⟨l, ⟨r, hr, rfl⟩, hil⟩
      rw [List.mem_range'_1] at hil
      exact ⟨r, hr, by omega⟩
    · rintro ⟨r, hr, h1, h2⟩
      refine ⟨_, ⟨r, hr, rfl⟩, ?_⟩
      rw [List.mem_range'_1]
      have := hwidth r hr
      omega
  · rw [unwind, List.pairwise_flatten]
    constructor
    · intro l hl
      rw [List.mem_map] at hl
      obtain ⟨r, hr, rfl⟩ := hl
      exact List.pairwise_lt_range' r.1 (r.2 - r.1)
    · rw [List.pairwise_map]
      refine (chain_sep_pairwise rs hwidth hasc).imp ?_
      intro a b h x hx y hy
      rw [List.mem_range'_1] at hx hy
      omega

/-- Claim C6 witness at the spec's own example input. -/
theorem claim_C6_unwind_witness :
    (∀ r ∈ [((0 : Nat), (3 : Nat)), (5, 6)], r.1 ≤ r.2)
    ∧ List.Chain' (fun r s => r.2 ≤ s.1) [((0 : Nat), (3 : Nat)), (5, 6)]
    ∧ (unwind [(0, 3), (5, 6)] = [0, 1, 2, 5]
      ∧ (unwind [((0 : Nat), (3 : Nat)), (5, 6)]).length
          = ([((0 : Nat), (3 : Nat)), (5, 6)].map (fun r => r.2 - r.1)).sum
      ∧ (∀ i, i ∈ unwind [((0 : Nat), (3 : Nat)), (5, 6)]
          ↔ ∃ r ∈ [((0 : Nat), (3 : Nat)), (5, 6)], r.1 ≤ i ∧ i < r.2)
      ∧ List.Pairwise (fun a b => a < b) (unwind [((0 : Nat), (3 : Nat)), (5, 6)])) := by
  have hasc : List.Chain' (fun r s => r.2 ≤ s.1) [((0 : Nat), (3 : Nat)), (5, 6)] := by
    simp [List.chain'_cons]
  exact ⟨by decide, hasc, claim_C6_unwind [(0, 3), (5, 6)] (by decide) hasc⟩

/-- The raw notification payload delivered by the Backing Collection: each
kind of change comes as a list of half-open index ranges. -/
structure RawChanges where
  deletions : List (Nat × Nat)
  insertions : List (Nat × Nat)
  modifications : List (Nat × Nat)
  modificationsNew : List (Nat × Nat)
  deriving DecidableEq, Repr

/-- The translated `CollectionChangeSet` handed to listeners. -/
structure CollectionChangeSet where
  deletions : List Nat
  insertions : List Nat
  oldModifications : List Nat
  newModifications : List Nat
  deriving DecidableEq, Repr

/-- The translation done inside the notification callback registered in the
`OrderedCollection` constructor: each range list is unwound. -/
def translateChanges (changes : RawChanges) : CollectionChangeSet :=
  { deletions := unwind changes.deletions
    insertions := unwind changes.insertions
    oldModifications := unwind changes.modifications
    newModifications := unwind changes.modificationsNew }

/-- The per-callback fault boundary from the constructor: the listener call
is wrapped in try/catch, and a raised error is scheduled for an
asynchronous rethrow (`setImmediate`) instead of propagating through the
synchronous delivery stack. Returns the deferred error, if any. -/
def wrappedNotify (callback : CollectionChangeSet → Except ε Unit)
    (changes : RawChanges) : Option ε :=
  match callback (translateChanges changes) with
  | .ok _ => none
  | .error e => some e

/-- What one synchronous delivery cycle produces: the listeners invoked (in
order, with the payload each received) and the queue of errors deferred to
asynchronous rethrow after the delivery call returns. A synchronous raise
has no representation because the fault boundary of `wrappedNotify` is
total. -/
structure DeliveryResult (ε : Type w) where
  delivered : List (Nat × CollectionChangeSet)
  deferredErrors : List ε

/-- Modelled from the spec: the Collection base class (Collection.ts is not
under src/) invokes every currently-registered listener synchronously, in
registration order, each through the `wrappedNotify` fault boundary,
continuing to subsequent listeners regardless of an earlier listener's
failure. -/
def deliverFrom (changes : RawChanges) :
    Nat → List (CollectionChangeSet → Except ε Unit) → DeliveryResult ε
  | _, [] => { delivered := [], deferredErrors := [] }
  | i, l :: ls =>
    let rest := deliverFrom changes (i + 1) ls
    match wrappedNotify l changes with
    | some e =>
      { delivered := (i, translateChanges changes) :: rest.delivered
        deferredErrors := e :: rest.deferredErrors }
    | none =>
      { delivered := (i, translateChanges changes) :: rest.delivered
        deferredErrors := rest.deferredErrors }

/-- One notification delivery to the registered listeners. -/
def deliver (changes : RawChanges)
    (listeners : List (CollectionChangeSet → Except ε Unit)) : DeliveryResult ε :=
  deliverFrom changes 0 listeners

/-- Claim C3: with two registered listeners of which the first raises, the
second still receives the same ChangeSet in the same delivery cycle, and
the first listener's error is only queued for asynchronous rethrow (head of
the deferred queue drained after the delivery call), never raised through
the synchronous delivery result. -/
theorem claim_C3_listener_isolation {ε : Type w} (changes : RawChanges)
    (l1 l2 : CollectionChangeSet → Except ε Unit) (e : ε)
    (h1 : l1 (translateChanges changes) = .error e) :
    (deliver changes [l1, l2]).delivered
      = [(0, translateChanges changes), (1, translateChanges changes)]
    ∧ (deliver changes [l1, l2]).deferredErrors.head? = some e := by
  cases h2 : l2 (translateChanges changes) with
  | ok u => cases u; simp [deliver, deliverFrom, wrappedNotify, h1, h2]
  | error e2 => simp [deliver, deliverFrom, wrappedNotify, h1, h2]

/-- Claim C3 witness: a raising first listener and a well-behaved second
listener on an empty raw payload. -/
theorem claim_C3_listener_isolation_witness :
    ((fun _ : CollectionChangeSet => (Except.error 7 : Except Nat Unit))
        (translateChanges ⟨[], [], [], []⟩) = .error 7)
    ∧ ((deliver ⟨[], [], [], []⟩
          [fun _ => Except.error 7, fun _ => Except.ok ()]).delivered
        = [(0, translateChanges ⟨[], [], [], []⟩), (1, translateChanges ⟨[], [], [], []⟩)]
      ∧ (deliver ⟨[], [], [], []⟩
          [fun _ => Except.error 7, fun _ => Except.ok ()]).deferredErrors.head?
        = some 7) :=
  ⟨rfl, claim_C3_listener_isolation ⟨[], [], [], []⟩
    (fun _ => Except.error 7) (fun _ => Except.ok ()) 7 rfl⟩

/-- The state of an iterator produced by `values()`: it owns a snapshot of
the backing (`this.results.snapshot()`) and the element count captured by
`this.keys()` at creation (`this.results.size()`), both fixed at iterator
creation. -/
structure ValuesIterator (β : Type v) where
  snapshot : List β
  size : Nat

/-- `OrderedCollection.values()`: builds the iterator, freezing the
snapshot and the size as of the moment of the call. -/
def OrderedCollection.values (results : List β) : ValuesIterator β :=
  { snapshot := results, size := results.length }

/-- Draining the iterator: its `next` steps an index through
`0 .. size - 1` and yields `fromBinding (get snapshot index)` at each
step. -/
def drainValues (fromBinding : β → α) (it : ValuesIterator β) : List α :=
  (List.range it.size).filterMap
    (fun index => OrderedCollection.get fromBinding it.snapshot index)

theorem range_filterMap_get (f : β → α) :
    ∀ l : List β,
      (List.range l.length).filterMap (fun index => OrderedCollection.get f l index)
        = l.map f
  | [] => rfl
  | a :: l => by
    rw [List.length_cons, List.range_succ_eq_map, List.filterMap_cons,
      List.filterMap_map]
    have h0 : OrderedCollection.get f (a :: l) 0 = some (f a) := by
      simp [OrderedCollection.get]
    rw [h0]
    have hstep : (fun index => OrderedCollection.get f (a :: l) index) ∘ Nat.succ
        = fun index => OrderedCollection.get f l index := by
      funext index
      simp [OrderedCollection.get, Function.comp]
    rw [hstep, range_filterMap_get f l, List.map_cons]

/-- Claim C5: an iterator obtained from `values()` before a mutation (the
backing going from `pre` to `post`) still yields the pre-mutation elements
and length — its output does not mention `post` at all — while a direct
`get(index)` on the live facade after the mutation reads `post`. -/
theorem claim_C5_iterator_snapshot (fromBinding : β → α) (pre post : List β)
    (index : Nat) (h : index < post.length) :
    drainValues fromBinding (OrderedCollection.values pre) = pre.map fromBinding
    ∧ (drainValues fromBinding (OrderedCollection.values pre)).length = pre.length
    ∧ OrderedCollection.get fromBinding post index
        = some (fromBinding (post.get ⟨index, h⟩)) := by
  have hdrain : drainValues fromBinding (OrderedCollection.values pre)
      = pre.map fromBinding := range_filterMap_get fromBinding pre
  refine ⟨hdrain, by rw [hdrain, List.length_map], ?_⟩
  simp [OrderedCollection.get, List.getElem?_eq_getElem h]

/-- Claim C5 witness: iterator created over `[10, 20]`, backing mutated to
`[7]`; the drained iterator still yields both old elements while `get 0`
reads the new backing. -/
theorem claim_C5_iterator_snapshot_witness :
    (0 < ([7] : List Nat).length)
    ∧ (drainValues (fun n => n + 1) (OrderedCollection.values [10, 20]) = [11, 21]
      ∧ (drainValues (fun n => n + 1) (OrderedCollection.values ([10, 20] : List Nat))).length = 2
      ∧ OrderedCollection.get (fun n => n + 1) ([7] : List Nat) 0 = some 8) :=
  ⟨by decide,
    claim_C5_iterator_snapshot (fun n => n + 1) [10, 20] [7] 0 (by decide)⟩

end RealmJS
